import Mathlib

/-!
Shallow embedding of the untracker-rs stem-extraction pipeline.

The definitions below are translated from the repository's source:
  - src/src/audio/mod.rs : AudioFormat, ResampleMethod, ExportOptions,
    write_audio_file and the per-format writers;
  - src/src/lib.rs : render_stem (Opus sample-rate correction, voice
    isolation loop, output path construction, streaming render loop);
  - src/crates/openmpt/src/ext.rs : the engine adapter surface consumed by
    render_stem, modelled as an opaque RenderEngine (frames / pcm /
    position / duration per chunk request).

Machine integers are modelled as Nat / Int with explicit reductions where
the source performs a narrowing cast (u32 to u16, u32 to u8) or a shift on
i32.  File I/O is modelled by returning the file's content as a value: an
error result carries no content, mirroring the source paths where
validation precedes File::create.  f64 positions and durations coming from
the engine are modelled as rationals (only order comparisons are
performed on them).
-/

namespace Untracker

/-- Little-endian bytes of a 16-bit value (to_le_bytes on u16). -/
def le16 (n : Nat) : List Nat := [n % 256, n / 256 % 256]

/-- Little-endian bytes of a 32-bit value (to_le_bytes on u32). -/
def le32 (n : Nat) : List Nat :=
  [n % 256, n / 256 % 256, n / 65536 % 256, n / 16777216 % 256]

/-- Two's-complement wrap of an integer into the i32 range, used to model
the i32 left shift in write_wav_file. -/
def wrap32 (x : Int) : Int := (x + 2147483648) % 4294967296 - 2147483648

/-- Little-endian bytes of an i16 value (to_le_bytes on i16, two's
complement). -/
def le16i (s : Int) : List Nat := le16 (s % 65536).toNat

/-- Bytes of an ASCII string literal, as written by write_all. -/
def asciiBytes (s : String) : List Nat := s.data.map Char.toNat

/-- ASCII lowercase of one character; the fragment of Rust's
str::to_lowercase exercised by the format names. -/
def asciiLowerChar (c : Char) : Char :=
  if 65 ≤ c.toNat ∧ c.toNat ≤ 90 then Char.ofNat (c.toNat + 32) else c

/-- ASCII lowercase of a string (s.to_lowercase() in AudioFormat::from_str). -/
def toLowerAscii (s : String) : String := String.mk (s.data.map asciiLowerChar)

/-- AudioFormat from src/src/audio/mod.rs, with all cargo features
(vorbis, opus, flac) enabled as in the repository's tests. -/
inductive AudioFormat where
  | wav
  | vorbis
  | opus
  | flac
deriving DecidableEq, Repr, Inhabited

/-- AudioFormat::from_str: lowercase the input, then match the format
names; "ogg" is an alias for Vorbis; anything else is an error naming the
original input. -/
def audioFormatFromStr (s : String) : Except String AudioFormat :=
  let t := toLowerAscii s
  if t = "wav" then .ok .wav
  else if t = "vorbis" ∨ t = "ogg" then .ok .vorbis
  else if t = "opus" then .ok .opus
  else if t = "flac" then .ok .flac
  else .error ("Unsupported or disabled audio format: " ++ s)

/-- ResampleMethod from src/src/audio/mod.rs. -/
inductive ResampleMethod where
  | nearest
  | linear
  | cubic
  | sinc
deriving DecidableEq, Repr, Inhabited

/-- ResampleMethod::to_openmpt_filter_length. -/
def ResampleMethod.toOpenmptFilterLength : ResampleMethod → Int
  | .nearest => 1
  | .linear => 2
  | .cubic => 4
  | .sinc => 8

/-- ExportOptions from src/src/audio/mod.rs; u32 fields become Nat, the
i32 field becomes Int. -/
structure ExportOptions where
  format : AudioFormat
  sample_rate : Nat
  channels : Nat
  bit_depth : Nat
  opus_bitrate : Nat
  vorbis_quality : Nat
  resample : ResampleMethod
  stereo_separation : Int
deriving DecidableEq, Repr, Inhabited

/-- The hound WavSpec fields set by write_wav_file (channels and
bits_per_sample are u16 in hound, sample_rate is u32). -/
structure WavSpec where
  channels : Nat
  sample_rate : Nat
  bits_per_sample : Nat
deriving DecidableEq, Repr, Inhabited

/-- A written WAV file: the declared spec and the sample words passed to
the hound writer, in order. -/
structure WavFile where
  spec : WavSpec
  data : List Int
deriving DecidableEq, Repr, Inhabited

/-- Validation errors raised by the format writers before creating the
output file.  Only the Opus writer validates anything; the messages in the
source are "Opus only supports 1 or 2 channels" and "Opus only supports
8, 12, 16, 24, or 48 kHz sample rates". -/
inductive WriteError where
  | opusBadChannels
  | opusBadRate
deriving DecidableEq, Repr, Inhabited

/-- Content of a written audio file, per format.  For Opus the packet
payloads come from the external libopus encoder, so the model keeps the
PCM frames handed to the encoder (zero-padded as in the source) and the
granule positions, alongside the literal header and tags packets. -/
inductive AudioFileData where
  | wav (f : WavFile)
  | vorbis (bytes : List Nat)
  | opus (head tags : List Nat) (frames : List (List Int)) (granules : List Nat)
  | flac (bytes : List Nat)
deriving DecidableEq, Repr, Inhabited

/-- write_wav_file: builds the WavSpec from the options (with the u32 to
u16 narrowing casts of the source) and writes each i16 sample, shifted
left by 8 bits when a 24-bit depth was requested, verbatim otherwise.
The external hound writer is modelled on the bit depths the source
requests (16 and 24), where its per-sample serialization succeeds
deterministically; hound's own write_sample failures for other depths
(raised after the file has been created, never as a prior validation)
are outside this model, and no theorem below asserts WAV success outside
depths 16 and 24. -/
def writeWavFile (samples : List Int) (options : ExportOptions) : WavFile :=
  { spec :=
      { channels := options.channels % 65536
        sample_rate := options.sample_rate
        bits_per_sample := options.bit_depth % 65536 }
    data := samples.map fun sample =>
      if options.bit_depth = 24 then wrap32 (sample * 256) else sample }

/-- write_vorbis_file (audio/mod.rs): placeholder container, "OggS" then
the sample rate, the quality byte, and the raw samples. -/
def writeVorbisFile (samples : List Int) (options : ExportOptions) : List Nat :=
  asciiBytes "OggS" ++ le32 options.sample_rate ++ [options.vorbis_quality % 256]
    ++ samples.flatMap le16i

/-- write_flac_file (audio/mod.rs): "fLaC" then the sample rate, the bit
depth byte, and the raw samples. -/
def writeFlacFile (samples : List Int) (options : ExportOptions) : List Nat :=
  asciiBytes "fLaC" ++ le32 options.sample_rate ++ [options.bit_depth % 256]
    ++ samples.flatMap le16i

/-- The sample rates accepted by the Opus encoder, as listed twice in the
source (render_stem and write_opus_file). -/
def opusAllowedRates : List Nat := [8000, 12000, 16000, 24000, 48000]

/-- Splits a list into consecutive chunks of size k (slice::chunks). -/
def chunksOf (k : Nat) (l : List α) : List (List α) :=
  match k, l with
  | _, [] => []
  | 0, _ => []
  | k + 1, a :: rest =>
    (a :: rest).take (k + 1) :: chunksOf (k + 1) ((a :: rest).drop (k + 1))
termination_by l.length
decreasing_by
  simp only [List.length_drop, List.length_cons]
  omega

/-- Granule positions of the Opus packets: starting from the pre-skip
(312), each packet adds its frame count scaled to the 48 kHz reference. -/
def opusGranules (channels granuleMult : Nat) (chunks : List (List Int)) : List Nat :=
  (chunks.foldl
    (fun (acc : Nat × List Nat) c =>
      let g := acc.1 + c.length / channels * granuleMult
      (g, acc.2 ++ [g]))
    (312, [])).2

/-- write_opus_file (audio/mod.rs): validates the channel count and the
sample rate before creating the file, then emits the OpusHead packet, the
OpusTags packet, and one packet per 20 ms frame (the last frame
zero-padded), with cumulative granule positions. -/
def writeOpusFile (samples : List Int) (options : ExportOptions) :
    Except WriteError AudioFileData :=
  if options.channels ≠ 1 ∧ options.channels ≠ 2 then .error .opusBadChannels
  else if opusAllowedRates.contains options.sample_rate = false then .error .opusBadRate
  else
    let rate := options.sample_rate
    let preSkip := 312
    let head := asciiBytes "OpusHead" ++ [1, options.channels % 256] ++ le16 preSkip
      ++ le32 rate ++ le16 0 ++ [0]
    let tags := asciiBytes "OpusTags" ++ le32 9 ++ asciiBytes "untracker" ++ le32 0
    let samplesPerFrame := rate / 50 * options.channels
    let chunks := chunksOf samplesPerFrame samples
    let frames := chunks.map fun c => c ++ List.replicate (samplesPerFrame - c.length) 0
    .ok (.opus head tags frames (opusGranules options.channels (48000 / rate) chunks))

/-- write_audio_file: dispatch on the format.  The WAV, Vorbis and FLAC
writers perform no validation; only the Opus writer can fail. -/
def writeAudioFile (samples : List Int) (options : ExportOptions) :
    Except WriteError AudioFileData :=
  match options.format with
  | .wav => .ok (.wav (writeWavFile samples options))
  | .vorbis => .ok (.vorbis (writeVorbisFile samples options))
  | .opus => writeOpusFile samples options
  | .flac => .ok (.flac (writeFlacFile samples options))

/-- Whether an Except value is a success. -/
def exceptIsOk : Except ε α → Bool
  | .ok _ => true
  | .error _ => false

/-- The opaque tracker engine driven by the streaming render loop
(ModuleExt in crates/openmpt/src/ext.rs).  The n-th chunk request returns
frames n rendered frames whose valid interleaved PCM prefix is pcm n, and
afterwards the playback position is position n; duration is the engine's
duration estimate. -/
structure RenderEngine where
  frames : Nat → Nat
  pcm : Nat → List Int
  position : Nat → ℚ
  duration : ℚ

/-- The streaming render loop of render_stem (src/src/lib.rs):
request a chunk; stop on zero rendered frames; append the valid prefix of
frames_rendered times channels samples; stop when position has reached
duration; otherwise continue.  The loop in the source has no bound, so the
embedding takes a fuel argument and returns none when the fuel runs out
before either exit condition fires. -/
def renderLoopAux (e : RenderEngine) (channels : Nat) :
    Nat → Nat → List Int → Option (List Int)
  | 0, _, _ => none
  | fuel + 1, n, acc =>
    let rendered := e.frames n
    if rendered = 0 then some acc
    else
      let acc2 := acc ++ (e.pcm n).take (rendered * channels)
      if e.position n ≥ e.duration then some acc2
      else renderLoopAux e channels fuel (n + 1) acc2

/-- The render loop started at the first chunk with an empty accumulator. -/
def renderLoop (e : RenderEngine) (channels fuel : Nat) : Option (List Int) :=
  renderLoopAux e channels fuel 0 []

/-- The loop's exit condition at chunk n: zero frames rendered, or
position at or past the duration estimate. -/
def renderStops (e : RenderEngine) (n : Nat) : Prop :=
  e.frames n = 0 ∨ e.position n ≥ e.duration

instance (e : RenderEngine) : DecidablePred (renderStops e) := fun _ =>
  inferInstanceAs (Decidable (_ ∨ _))

/-- One set_instrument_mute_status call: point update of the engine's
mute table. -/
def setMuteStatus (st : Nat → Bool) (i : Nat) (b : Bool) : Nat → Bool :=
  fun j => if j = i then b else st j

/-- The isolation loop of render_stem: on a freshly loaded module (all
voices unmuted), for i in 0..count set the mute status of voice i to
(i != index). -/
def isolationMutes (count : Nat) (index : Int) : Nat → Bool :=
  (List.range count).foldl
    (fun st i => setMuteStatus st i (decide ((i : Int) ≠ index)))
    (fun _ => false)

/-- The module data render_stem obtains from the engine after a
successful load: voice counts, availability of the interactive (mute)
interface, and the render behaviour. -/
structure ModuleData where
  num_instruments : Nat
  num_samples : Nat
  has_interactive : Bool
  engine : RenderEngine

/-- Failures of render_stem.  loadFailed and interfaceUnavailable mirror
the two error returns in the source; writeFailed wraps the encoder
validation errors; fuelExhausted is the embedding's marker for a loop
that did not reach an exit condition within the given fuel. -/
inductive StemError where
  | loadFailed
  | interfaceUnavailable
  | fuelExhausted
  | writeFailed (e : WriteError)
deriving DecidableEq, Repr, Inhabited

/-- The observable outcome of a successful render_stem call: the mute
table after isolation, the sample rate passed to every render-chunk
request, the output artifact path, the accumulated PCM, and the written
file. -/
structure StemResult where
  muteState : Nat → Bool
  requestRate : Nat
  outputPath : String
  pcm : List Int
  file : AudioFileData

instance : Inhabited StemResult :=
  ⟨⟨fun _ => false, 0, "", [], default⟩⟩

/-- The Opus sample-rate correction at the top of render_stem: if the
format is Opus and the rate is not one of the supported ones, substitute
48000, leaving every other field unchanged. -/
def correctOpusOptions (options : ExportOptions) : ExportOptions :=
  if options.format = .opus ∧ opusAllowedRates.contains options.sample_rate = false
  then { options with sample_rate := 48000 }
  else options

/-- The type label of render_stem. -/
def typeLabel (is_instrument : Bool) : String :=
  if is_instrument then "instrument" else "sample"

/-- The file extension chosen by render_stem for each format. -/
def extStr : AudioFormat → String
  | .wav => "wav"
  | .vorbis => "ogg"
  | .opus => "opus"
  | .flac => "flac"

/-- A run of k zero characters. -/
def zeros (k : Nat) : String := String.mk (List.replicate k '0')

/-- Rust's width-3 zero padding of an integer, as in the format string of
render_stem: zeros between the sign and the digits up to a total width of
three. -/
def rustPad3 (n : Int) : String :=
  if n < 0 then "-" ++ zeros (2 - n.natAbs.repr.length) ++ n.natAbs.repr
  else zeros (3 - n.toNat.repr.length) ++ n.toNat.repr

/-- The output path built by render_stem. -/
def stemOutputPath (output_dir base_name : String) (is_instrument : Bool)
    (index : Int) (fmt : AudioFormat) : String :=
  output_dir ++ "/" ++ base_name ++ "_" ++ typeLabel is_instrument ++ "_"
    ++ rustPad3 (index + 1) ++ "." ++ extStr fmt

/-- render_stem (src/src/lib.rs): correct the options for Opus, load the
module from the original bytes (the loaded argument is none when the
engine rejects the bytes), require the interactive interface, isolate the
target voice among the voices of its kind, build the output path, drain
the streaming render loop, and encode the accumulated PCM. -/
def renderStem (loaded : Option ModuleData) (index : Int) (is_instrument : Bool)
    (output_dir base_name : String) (options : ExportOptions) (fuel : Nat) :
    Except StemError StemResult :=
  let options := correctOpusOptions options
  match loaded with
  | none => .error .loadFailed
  | some md =>
    if md.has_interactive = false then .error .interfaceUnavailable
    else
      let count := if is_instrument then md.num_instruments else md.num_samples
      let mute := isolationMutes count index
      let path := stemOutputPath output_dir base_name is_instrument index options.format
      match renderLoop md.engine options.channels fuel with
      | none => .error .fuelExhausted
      | some pcm =>
        match writeAudioFile pcm options with
        | .error e => .error (.writeFailed e)
        | .ok f => .ok ⟨mute, options.sample_rate, path, pcm, f⟩

/-- The four bytes of the OpusHead packet that declare the input sample
rate (offsets 12 to 15: after the 8-byte magic, the version byte, the
channel byte, and the 2-byte pre-skip). -/
def opusHeadRateBytes : AudioFileData → Option (List Nat)
  | .opus head _ _ _ => some ((head.drop 12).take 4)
  | _ => none

/-! Helper lemmas. -/

lemma foldl_setMuteStatus (g : Nat → Bool) (st : Nat → Bool) (count j : Nat) :
    ((List.range count).foldl (fun s i => setMuteStatus s i (g i)) st) j
      = if j < count then g j else st j := by
  induction count generalizing st with
  | zero => simp
  | succ c ih =>
    rw [List.range_succ, List.foldl_append]
    simp only [List.foldl_cons, List.foldl_nil, setMuteStatus]
    by_cases hjc : j = c
    · subst hjc
      simp
    · simp only [hjc, if_false]
      rw [ih]
      by_cases hlt : j < c
      · have : j < c + 1 := by omega
        simp [hlt, this]
      · have : ¬ j < c + 1 := by omega
        simp [hlt, this]

lemma isolationMutes_eval (count : Nat) (index : Int) (j : Nat) :
    isolationMutes count index j
      = if j < count then decide ((j : Int) ≠ index) else false := by
  unfold isolationMutes
  exact foldl_setMuteStatus _ _ count j

lemma wrap32_eq_self {x : Int} (h1 : -2147483648 ≤ x) (h2 : x < 2147483648) :
    wrap32 x = x := by
  unfold wrap32
  rw [Int.emod_eq_of_lt (by omega) (by omega)]
  omega

lemma toNat_ofNat_of_lt {n : Nat} (h : n < 55296) : (Char.ofNat n).toNat = n := by
  have hv : n.isValidChar := Or.inl h
  simp [Char.ofNat, hv, Char.ofNatAux, Char.toNat, UInt32.toNat, BitVec.toNat_ofNatLt]

lemma asciiLowerChar_idem (c : Char) :
    asciiLowerChar (asciiLowerChar c) = asciiLowerChar c := by
  unfold asciiLowerChar
  by_cases h : 65 ≤ c.toNat ∧ c.toNat ≤ 90
  · have ht : (Char.ofNat (c.toNat + 32)).toNat = c.toNat + 32 :=
      toNat_ofNat_of_lt (by omega)
    have hcond : ¬ (65 ≤ (Char.ofNat (c.toNat + 32)).toNat
        ∧ (Char.ofNat (c.toNat + 32)).toNat ≤ 90) := by
      rw [ht]; omega
    rw [if_pos h, if_neg hcond]
  · simp [h]

lemma toLowerAscii_idem (s : String) :
    toLowerAscii (toLowerAscii s) = toLowerAscii s := by
  unfold toLowerAscii
  have hcomp : asciiLowerChar ∘ asciiLowerChar = asciiLowerChar :=
    funext fun c => asciiLowerChar_idem c
  simp only [List.map_map]
  rw [hcomp]

lemma renderStops_not {e : RenderEngine} {n : Nat} (h : ¬ renderStops e n) :
    e.frames n ≠ 0 ∧ ¬ e.position n ≥ e.duration := by
  unfold renderStops at h
  push_neg at h
  exact ⟨h.1, not_le.mpr h.2⟩

lemma renderLoopAux_none (e : RenderEngine) (ch : Nat) :
    ∀ (fuel k : Nat) (acc : List Int),
      (∀ m, m < fuel → ¬ renderStops e (k + m)) →
      renderLoopAux e ch fuel k acc = none := by
  intro fuel
  induction fuel with
  | zero => intro k acc _; rfl
  | succ f ih =>
    intro k acc h
    have h0 := renderStops_not (by simpa using h 0 (by omega))
    unfold renderLoopAux
    simp only [h0.1, if_false, h0.2, if_neg]
    apply ih
    intro m hm
    have := h (m + 1) (by omega)
    have hk : k + (m + 1) = k + 1 + m := by omega
    rwa [hk] at this

lemma renderLoopAux_exit (e : RenderEngine) (ch : Nat) :
    ∀ (j fuel k : Nat) (acc : List Int),
      (∀ m, m < j → ¬ renderStops e (k + m)) →
      renderStops e (k + j) →
      j < fuel →
      renderLoopAux e ch fuel k acc = renderLoopAux e ch (j + 1) k acc
        ∧ (renderLoopAux e ch (j + 1) k acc).isSome = true := by
  intro j
  induction j with
  | zero =>
    intro fuel k acc _ hstop hlt
    obtain ⟨f, rfl⟩ : ∃ f, fuel = f + 1 := ⟨fuel - 1, by omega⟩
    rw [Nat.add_zero] at hstop
    by_cases hf : e.frames k = 0
    · constructor
      · unfold renderLoopAux
        simp [hf]
      · unfold renderLoopAux
        simp [hf]
    · have hp : e.position k ≥ e.duration := by
        rcases hstop with h | h
        · exact absurd h hf
        · exact h
      constructor
      · unfold renderLoopAux
        simp [hf, hp]
      · unfold renderLoopAux
        simp [hf, hp]
  | succ j ih =>
    intro fuel k acc hno hstop hlt
    obtain ⟨f, rfl⟩ : ∃ f, fuel = f + 1 := ⟨fuel - 1, by omega⟩
    have h0 := renderStops_not (by simpa using hno 0 (by omega))
    have hshift : ∀ m, m < j → ¬ renderStops e (k + 1 + m) := by
      intro m hm
      have := hno (m + 1) (by omega)
      have hk : k + (m + 1) = k + 1 + m := by omega
      rwa [hk] at this
    have hstop2 : renderStops e (k + 1 + j) := by
      have hk : k + (j + 1) = k + 1 + j := by omega
      rwa [hk] at hstop
    have := ih f (k + 1) (acc ++ (e.pcm k).take (e.frames k * ch)) hshift hstop2 (by omega)
    constructor
    · conv_lhs => unfold renderLoopAux
      conv_rhs => unfold renderLoopAux
      simp only [h0.1, if_false, h0.2, if_neg]
      exact this.1
    · conv_lhs => unfold renderLoopAux
      simp only [h0.1, if_false, h0.2, if_neg]
      exact this.2

lemma renderLoopAux_dvd (e : RenderEngine) (ch : Nat)
    (hwf : ∀ n, (e.pcm n).length = e.frames n * ch) :
    ∀ (fuel k : Nat) (acc out : List Int),
      ch ∣ acc.length →
      renderLoopAux e ch fuel k acc = some out →
      ch ∣ out.length := by
  intro fuel
  induction fuel with
  | zero => intro k acc out _ h; exact absurd h (by simp [renderLoopAux])
  | succ f ih =>
    intro k acc out hacc h
    unfold renderLoopAux at h
    by_cases hf : e.frames k = 0
    · rw [if_pos hf] at h
      rw [← Option.some.inj h]
      exact hacc
    · have hlen : ((e.pcm k).take (e.frames k * ch)).length = e.frames k * ch := by
        rw [List.length_take, hwf, Nat.min_self]
      have hacc2 : ch ∣ (acc ++ (e.pcm k).take (e.frames k * ch)).length := by
        rw [List.length_append, hlen]
        exact Nat.dvd_add hacc (Dvd.intro_left _ rfl)
      rw [if_neg hf] at h
      by_cases hp : e.position k ≥ e.duration
      · rw [if_pos hp] at h
        rw [← Option.some.inj h]
        exact hacc2
      · rw [if_neg hp] at h
        exact ih (k + 1) _ out hacc2 h

lemma writeOpusFile_ok_head {samples : List Int} {options : ExportOptions}
    {f : AudioFileData} (h : writeOpusFile samples options = .ok f) :
    opusHeadRateBytes f = some (le32 options.sample_rate) := by
  unfold writeOpusFile at h
  by_cases hch : options.channels ≠ 1 ∧ options.channels ≠ 2
  · rw [if_pos hch] at h
    exact absurd h (by simp)
  · rw [if_neg hch] at h
    by_cases hr : opusAllowedRates.contains options.sample_rate = false
    · rw [if_pos hr] at h
      exact absurd h (by simp)
    · rw [if_neg hr] at h
      rw [← Except.ok.inj h]
      rfl

lemma renderStem_ok_inv {loaded : Option ModuleData} {index : Int}
    {is_instrument : Bool} {output_dir base_name : String}
    {options : ExportOptions} {fuel : Nat} {r : StemResult}
    (h : renderStem loaded index is_instrument output_dir base_name options fuel
      = .ok r) :
    ∃ md pcm, loaded = some md ∧ md.has_interactive = true
      ∧ renderLoop md.engine (correctOpusOptions options).channels fuel = some pcm
      ∧ writeAudioFile pcm (correctOpusOptions options) = .ok r.file
      ∧ r.requestRate = (correctOpusOptions options).sample_rate
      ∧ r.muteState = isolationMutes
          (if is_instrument then md.num_instruments else md.num_samples) index
      ∧ r.outputPath = stemOutputPath output_dir base_name is_instrument index
          (correctOpusOptions options).format
      ∧ r.pcm = pcm := by
  unfold renderStem at h
  cases loaded with
  | none => exact absurd h (by simp)
  | some md =>
    simp only at h
    by_cases hI : md.has_interactive = false
    · rw [if_pos hI] at h
      exact absurd h (by simp)
    · rw [if_neg hI] at h
      cases hR : renderLoop md.engine (correctOpusOptions options).channels fuel with
      | none =>
        rw [hR] at h
        exact absurd h (by simp)
      | some pcm =>
        rw [hR] at h
        dsimp only at h
        cases hW : writeAudioFile pcm (correctOpusOptions options) with
        | error e =>
          rw [hW] at h
          dsimp only at h
          exact absurd h (by simp)
        | ok f =>
          rw [hW] at h
          dsimp only at h
          rw [← Except.ok.inj h]
          exact ⟨md, pcm, rfl, by simpa using hI, hR, hW, rfl, rfl, rfl, rfl⟩

/-! Concrete fixtures used by the witness theorems. -/

/-- An engine that reports end-of-data on the first chunk request. -/
def engineZero : RenderEngine :=
  { frames := fun _ => 0
    pcm := fun _ => []
    position := fun _ => 0
    duration := 0 }

/-- A loaded module with three samples and no instruments, interactive
interface present, driven by engineZero. -/
def md0 : ModuleData :=
  { num_instruments := 0
    num_samples := 3
    has_interactive := true
    engine := engineZero }

/-- The default CLI options of the repository. -/
def optsWav : ExportOptions :=
  { format := .wav
    sample_rate := 44100
    channels := 2
    bit_depth := 16
    opus_bitrate := 128
    vorbis_quality := 5
    resample := .sinc
    stereo_separation := 100 }

/-- Default options with Opus format and the (unsupported) 44100 Hz rate. -/
def optsOpus44 : ExportOptions := { optsWav with format := .opus }

/-- The payload of a successful render, with a default for errors. -/
def stemRunOk (x : Except StemError StemResult) : StemResult :=
  match x with
  | .ok r => r
  | .error _ => default

/-! Claim theorems. -/

/-- C1: for either voice kind and a target index in the range of that
kind's voice count, the isolation step of render_stem (mute voice i with
flag i != index, for every i below the count) leaves voice i muted if and
only if i differs from the target index; in particular the target stays
unmuted and every other voice of the kind is muted. -/
theorem stem_isolation_mutes_iff_not_target
    (num_instruments num_samples : Nat) (is_instrument : Bool) (index : Int)
    (h0 : 0 ≤ index)
    (h1 : index < ((if is_instrument then num_instruments else num_samples : Nat) : Int)) :
    ∀ i : Nat, i < (if is_instrument then num_instruments else num_samples) →
      (isolationMutes (if is_instrument then num_instruments else num_samples) index i
          = true
        ↔ (i : Int) ≠ index) := by
  intro i hi
  rw [isolationMutes_eval, if_pos hi]
  simp

/-- Witness for C1 at a concrete in-range input. -/
theorem stem_isolation_mutes_iff_not_target_witness :
    isolationMutes 4 2 1 = true ↔ ((1 : Int) ≠ 2) :=
  stem_isolation_mutes_iff_not_target 4 0 true 2 (by decide) (by decide) 1 (by decide)

/-- C4: the streaming render loop exits exactly at the first chunk at
which zero frames were rendered or position reached duration: with fuel
not exceeding that first chunk index the loop has not yet exited, and any
fuel beyond it yields the same successful result — so under the
precondition that some chunk satisfies one of the two exit conditions,
the loop terminates. -/
theorem render_loop_exits_at_first_stop (e : RenderEngine) (channels : Nat)
    (h : ∃ n, renderStops e n) :
    (∀ fuel, fuel ≤ Nat.find h → renderLoop e channels fuel = none)
      ∧ (∀ fuel, Nat.find h < fuel →
          renderLoop e channels fuel = renderLoop e channels (Nat.find h + 1)
            ∧ (renderLoop e channels fuel).isSome = true) := by
  constructor
  · intro fuel hfuel
    apply renderLoopAux_none
    intro m hm
    have := Nat.find_min h (show m < Nat.find h by omega)
    simpa using this
  · intro fuel hfuel
    have hstop : renderStops e (0 + Nat.find h) := by simpa using Nat.find_spec h
    have hno : ∀ m, m < Nat.find h → ¬ renderStops e (0 + m) := by
      intro m hm
      simpa using Nat.find_min h hm
    have hx := renderLoopAux_exit e channels (Nat.find h) fuel 0 [] hno hstop hfuel
    refine ⟨hx.1, ?_⟩
    unfold renderLoop
    rw [hx.1]
    exact hx.2

/-- Witness for C4: an engine that stops immediately; with zero fuel the
loop reports no exit yet. -/
theorem render_loop_exits_witness : renderLoop engineZero 2 0 = none :=
  (render_loop_exits_at_first_stop engineZero 2 ⟨0, Or.inl rfl⟩).1 0 (Nat.zero_le _)

/-- C6: each loop iteration appends exactly frames_rendered times
channel_count samples to the accumulator, the divisibility invariant is
preserved through every step of the loop, and any buffer the loop
returns has length an exact multiple of channel_count. -/
theorem render_buffer_length_multiple_of_channels (e : RenderEngine) (channels : Nat)
    (hch : channels = 1 ∨ channels = 2)
    (hwf : ∀ n, (e.pcm n).length = e.frames n * channels) :
    (∀ n, ((e.pcm n).take (e.frames n * channels)).length = e.frames n * channels)
      ∧ (∀ fuel k acc out, channels ∣ List.length acc →
          renderLoopAux e channels fuel k acc = some out →
            channels ∣ List.length out)
      ∧ (∀ fuel out, renderLoop e channels fuel = some out →
          channels ∣ List.length out) := by
  refine ⟨?_, ?_, ?_⟩
  · intro n
    rw [List.length_take, hwf, Nat.min_self]
  · intro fuel k acc out hacc hout
    exact renderLoopAux_dvd e channels hwf fuel k acc out hacc hout
  · intro fuel out hout
    exact renderLoopAux_dvd e channels hwf fuel 0 [] out (by simp) hout

/-- Witness for C6 at a concrete engine and channel count. -/
theorem render_buffer_length_witness : (2 : Nat) ∣ List.length ([] : List Int) :=
  (render_buffer_length_multiple_of_channels engineZero 2 (Or.inr rfl)
    (fun _ => rfl)).2.2 1 [] rfl

lemma writeAudioFile_opus {samples : List Int} {o : ExportOptions}
    (hf : o.format = .opus) :
    writeAudioFile samples o = writeOpusFile samples o := by
  unfold writeAudioFile
  rw [hf]

lemma correctOpusOptions_format (o : ExportOptions) :
    (correctOpusOptions o).format = o.format := by
  unfold correctOpusOptions
  split_ifs <;> rfl

lemma correctOpusOptions_rate_bad {o : ExportOptions} (hf : o.format = .opus)
    (hb : opusAllowedRates.contains o.sample_rate = false) :
    (correctOpusOptions o).sample_rate = 48000 := by
  unfold correctOpusOptions
  rw [if_pos ⟨hf, hb⟩]

lemma correctOpusOptions_rate_good {o : ExportOptions}
    (hg : opusAllowedRates.contains o.sample_rate = true) :
    (correctOpusOptions o).sample_rate = o.sample_rate := by
  unfold correctOpusOptions
  rw [if_neg]
  rintro ⟨-, hb⟩
  rw [hg] at hb
  exact Bool.noConfusion hb

/-- C2: for a successful render_stem run with Opus format, an unsupported
sample rate is replaced by 48000 before the loop's render-chunk requests
(the rate every chunk request carries is 48000) and the OpusHead packet
declares rate 48000; a rate already in the supported set is passed
through unchanged to both. -/
theorem opus_rate_corrected_before_render
    (loaded : Option ModuleData) (index : Int) (is_instrument : Bool)
    (output_dir base_name : String) (options : ExportOptions) (fuel : Nat)
    (r : StemResult)
    (hfmt : options.format = .opus)
    (hok : renderStem loaded index is_instrument output_dir base_name options fuel
      = .ok r) :
    (opusAllowedRates.contains options.sample_rate = false →
        r.requestRate = 48000 ∧ opusHeadRateBytes r.file = some (le32 48000))
      ∧ (opusAllowedRates.contains options.sample_rate = true →
          r.requestRate = options.sample_rate
            ∧ opusHeadRateBytes r.file = some (le32 options.sample_rate)) := by
  obtain ⟨md, pcm, -, -, -, hW, hrate, -, -, -⟩ := renderStem_ok_inv hok
  have hfmtC : (correctOpusOptions options).format = .opus := by
    rw [correctOpusOptions_format]
    exact hfmt
  rw [writeAudioFile_opus hfmtC] at hW
  have hHead := writeOpusFile_ok_head hW
  constructor
  · intro hbad
    rw [correctOpusOptions_rate_bad hfmt hbad] at hrate hHead
    exact ⟨hrate, hHead⟩
  · intro hgood
    rw [correctOpusOptions_rate_good hgood] at hrate hHead
    exact ⟨hrate, hHead⟩

/-- Witness for C2: a concrete Opus run at 44100 Hz. -/
theorem opus_rate_corrected_witness :
    (stemRunOk (renderStem (some md0) 0 false "out" "song" optsOpus44 1)).requestRate
        = 48000
      ∧ opusHeadRateBytes
          (stemRunOk (renderStem (some md0) 0 false "out" "song" optsOpus44 1)).file
        = some (le32 48000) :=
  (opus_rate_corrected_before_render (some md0) 0 false "out" "song" optsOpus44 1
    (stemRunOk (renderStem (some md0) 0 false "out" "song" optsOpus44 1))
    rfl rfl).1 rfl

/-- Options with a channel count outside the supported set but a standard
bit depth; the claim of C3 requires these to be rejected. -/
def optsWav3 : ExportOptions := { optsWav with channels := 3 }

/-- C3 counterexample: the claim requires write_audio_file to fail with a
validation error for channel counts outside the supported set regardless
of format, but for WAV format with channels = 3 and bit depth 16 the call
succeeds: write_wav_file performs no channel or bit-depth validation and
writes a 3-channel WAV file. -/
theorem write_audio_validation_counterexample :
    exceptIsOk (writeAudioFile [1, 2, 3] optsWav3) = true := rfl

/-- C3 amended: write_audio_file performs no format-independent channel
or bit-depth validation and raises no validation error before file I/O
except in the Opus writer: a WAV request with a bit depth the WAV writer
serializes (16 or 24) succeeds for every channel count — channels are
never checked (failures for other bit depths arise inside the external
hound writer after the file is created, not as a prior validation); the
placeholder Vorbis and FLAC writers validate nothing; only the Opus
writer rejects a channel count outside the supported pair, or an
unsupported sample rate, before any bytes are written (the error carries
no file content). -/
theorem write_audio_validation_amended (samples : List Int) (options : ExportOptions) :
    (options.format = .wav →
        (options.bit_depth = 16 ∨ options.bit_depth = 24) →
        exceptIsOk (writeAudioFile samples options) = true)
      ∧ ((options.format = .vorbis ∨ options.format = .flac) →
          exceptIsOk (writeAudioFile samples options) = true)
      ∧ (options.format = .opus → options.channels ≠ 1 → options.channels ≠ 2 →
          writeAudioFile samples options = .error .opusBadChannels)
      ∧ (options.format = .opus →
          (options.channels = 1 ∨ options.channels = 2) →
          opusAllowedRates.contains options.sample_rate = false →
          writeAudioFile samples options = .error .opusBadRate) := by
  refine ⟨?_, ?_, ?_, ?_⟩
  · intro hf _
    unfold writeAudioFile
    rw [hf]
    rfl
  · rintro (hf | hf) <;> (unfold writeAudioFile; rw [hf]) <;> rfl
  · intro hf h1 h2
    rw [writeAudioFile_opus hf]
    unfold writeOpusFile
    rw [if_pos ⟨h1, h2⟩]
  · intro hf hch hr
    rw [writeAudioFile_opus hf]
    unfold writeOpusFile
    rw [if_neg (by rcases hch with h | h <;> simp [h]), if_pos hr]

/-- Options with Opus format and an unsupported channel count. -/
def optsOpusBadCh : ExportOptions := { optsOpus44 with channels := 3 }

/-- The default options with FLAC format. -/
def optsFlac : ExportOptions := { optsWav with format := .flac }

/-- Witness for the amended C3 at concrete inputs covering all four
conjuncts; the WAV conjunct is exercised at an unsupported channel
count. -/
theorem write_audio_validation_amended_witness :
    exceptIsOk (writeAudioFile [0] optsWav3) = true
      ∧ exceptIsOk (writeAudioFile [0] optsFlac) = true
      ∧ writeAudioFile [0] optsOpusBadCh = .error .opusBadChannels
      ∧ writeAudioFile [0] optsOpus44 = .error .opusBadRate :=
  ⟨(write_audio_validation_amended [0] optsWav3).1 rfl (Or.inl rfl),
   (write_audio_validation_amended [0] optsFlac).2.1 (Or.inr rfl),
   (write_audio_validation_amended [0] optsOpusBadCh).2.2.1 rfl (by decide) (by decide),
   (write_audio_validation_amended [0] optsOpus44).2.2.2 rfl (Or.inr rfl) rfl⟩

/-- C5 counterexample: the claim requires an out-of-range voice index to
fail with InvalidVoiceIndex, but with three sample voices and index 5
render_stem succeeds — no index validation (and no such error) exists in
the code. -/
theorem invalid_index_counterexample :
    exceptIsOk (renderStem (some md0) 5 false "out" "song" optsWav 1) = true := rfl

/-- C5 amended: an out-of-range voice index does not fail: the isolation
loop simply mutes every voice of the kind (each enumerated index differs
from the target), and whether render_stem succeeds is independent of the
requested index. -/
theorem invalid_index_no_failure (count : Nat) (index : Int)
    (h : index < 0 ∨ (count : Int) ≤ index) :
    (∀ i, i < count → isolationMutes count index i = true)
      ∧ (∀ loaded is_instrument output_dir base_name options fuel,
          exceptIsOk
              (renderStem loaded index is_instrument output_dir base_name options fuel)
            = exceptIsOk
              (renderStem loaded 0 is_instrument output_dir base_name options fuel)) := by
  constructor
  · intro i hi
    rw [isolationMutes_eval, if_pos hi]
    have hne : (i : Int) ≠ index := by
      rcases h with h | h <;> omega
    simp [hne]
  · intro loaded is_instrument output_dir base_name options fuel
    cases loaded with
    | none => rfl
    | some md =>
      unfold renderStem
      dsimp only
      by_cases hI : md.has_interactive = false
      · rw [if_pos hI, if_pos hI]
      · rw [if_neg hI, if_neg hI]
        cases hR : renderLoop md.engine (correctOpusOptions options).channels fuel with
        | none => rfl
        | some pcm =>
          dsimp only
          cases hW : writeAudioFile pcm (correctOpusOptions options) with
          | error e => rfl
          | ok f => rfl

/-- Witness for the amended C5: index 5 against three voices mutes
voice 1. -/
theorem invalid_index_no_failure_witness : isolationMutes 3 5 1 = true :=
  (invalid_index_no_failure 3 5 (Or.inr (by decide))).1 1 (by decide)

/-- C7: for WAV output the written file's declared channel count, sample
rate and bits per sample are exactly the requested ExportOptions fields
(under the ExportOptions invariants channels in one-or-two and bit depth
in sixteen-or-twentyfour, so the u16 narrowing casts are lossless). -/
theorem wav_declared_spec_matches_options (samples : List Int)
    (options : ExportOptions)
    (hfmt : options.format = .wav)
    (hch : options.channels = 1 ∨ options.channels = 2)
    (hbd : options.bit_depth = 16 ∨ options.bit_depth = 24) :
    writeAudioFile samples options = .ok (.wav (writeWavFile samples options))
      ∧ (writeWavFile samples options).spec.channels = options.channels
      ∧ (writeWavFile samples options).spec.sample_rate = options.sample_rate
      ∧ (writeWavFile samples options).spec.bits_per_sample = options.bit_depth := by
  refine ⟨?_, ?_, rfl, ?_⟩
  · unfold writeAudioFile
    rw [hfmt]
  · show options.channels % 65536 = options.channels
    rcases hch with h | h <;> rw [h]
  · show options.bit_depth % 65536 = options.bit_depth
    rcases hbd with h | h <;> rw [h]

/-- Witness for C7 at the repository's default options. -/
theorem wav_declared_spec_witness :
    writeAudioFile [0] optsWav = .ok (.wav (writeWavFile [0] optsWav))
      ∧ (writeWavFile [0] optsWav).spec.channels = optsWav.channels
      ∧ (writeWavFile [0] optsWav).spec.sample_rate = optsWav.sample_rate
      ∧ (writeWavFile [0] optsWav).spec.bits_per_sample = optsWav.bit_depth :=
  wav_declared_spec_matches_options [0] optsWav rfl (Or.inr rfl) (Or.inl rfl)

/-- C8: the sample words handed to the WAV writer: with bit depth 24
every 16-bit sample s is written as s times 256 (the i32 left shift by 8,
exact on the i16 range, negatives included); with bit depth 16, samples
are written verbatim. -/
theorem wav_sample_words (samples : List Int) (options : ExportOptions)
    (hrange : ∀ s ∈ samples, -32768 ≤ s ∧ s ≤ 32767) :
    (options.bit_depth = 24 →
        (writeWavFile samples options).data = samples.map fun s => s * 256)
      ∧ (options.bit_depth = 16 → (writeWavFile samples options).data = samples) := by
  constructor
  · intro h24
    unfold writeWavFile
    dsimp only
    simp only [h24, if_true]
    apply List.map_congr_left
    intro s hs
    exact wrap32_eq_self (by have := hrange s hs; omega) (by have := hrange s hs; omega)
  · intro h16
    unfold writeWavFile
    dsimp only
    have hne : options.bit_depth ≠ 24 := by
      rw [h16]
      decide
    simp [hne]

/-- Options requesting a 24-bit WAV. -/
def opts24 : ExportOptions := { optsWav with bit_depth := 24 }

/-- Witness for C8 including a negative sample. -/
theorem wav_sample_words_witness :
    (writeWavFile [-5, 7] opts24).data = List.map (fun s => s * 256) [-5, 7] :=
  (wav_sample_words [-5, 7] opts24 (by decide)).1 rfl

/-- The spec's reading of the path formula: the 1-based ordinal
zero-padded to 3 digits. -/
def zeroPad3 (n : Nat) : String := zeros (3 - n.repr.length) ++ n.repr

/-- C9: the output artifact path is the pure function
dir/base_kindlabel_NNN.ext of (output directory, base name, voice kind,
0-based index, format), where the kind label is "instrument" for
instruments and "sample" otherwise and the displayed ordinal is the
0-based index plus one, zero-padded to three digits. -/
theorem output_path_formula (output_dir base_name : String)
    (is_instrument : Bool) (index : Nat) (fmt : AudioFormat) :
    stemOutputPath output_dir base_name is_instrument (index : Int) fmt
      = output_dir ++ "/" ++ base_name ++ "_"
        ++ (if is_instrument then "instrument" else "sample") ++ "_"
        ++ zeroPad3 (index + 1) ++ "." ++ extStr fmt := by
  unfold stemOutputPath typeLabel rustPad3 zeroPad3
  have hneg : ¬ ((index : Int) + 1 < 0) := by omega
  rw [if_neg hneg]
  have ht : ((index : Int) + 1).toNat = index + 1 := by omega
  rw [ht]

/-- C10: audio format parsing is case-insensitive — parsing any string
gives the same outcome as parsing its lowercase form; "WAV" and "wav"
both parse to Wav, "ogg" is an alias for Vorbis, and any string whose
lowercase form is not one of the five accepted names is rejected. -/
theorem audio_format_parse_case_insensitive :
    (∀ s : String,
        (audioFormatFromStr s).toOption
          = (audioFormatFromStr (toLowerAscii s)).toOption)
      ∧ audioFormatFromStr "WAV" = .ok .wav
      ∧ audioFormatFromStr "wav" = .ok .wav
      ∧ audioFormatFromStr "ogg" = .ok .vorbis
      ∧ (∀ s : String,
          ¬ toLowerAscii s ∈ (["wav", "vorbis", "ogg", "opus", "flac"] : List String) →
            exceptIsOk (audioFormatFromStr s) = false) := by
  refine ⟨?_, rfl, rfl, rfl, ?_⟩
  · intro s
    unfold audioFormatFromStr
    rw [toLowerAscii_idem]
    dsimp only
    split_ifs <;> rfl
  · intro s hs
    simp only [List.mem_cons, List.not_mem_nil, or_false] at hs
    push_neg at hs
    obtain ⟨h1, h2, h3, h4, h5⟩ := hs
    unfold audioFormatFromStr
    rw [if_neg h1]
    rw [if_neg (show ¬ (toLowerAscii s = "vorbis" ∨ toLowerAscii s = "ogg") by
      rintro (h | h)
      exacts [h2 h, h3 h])]
    rw [if_neg h4, if_neg h5]
    rfl

/-- Witness for C10 at a concrete rejected name. -/
theorem audio_format_parse_witness :
    exceptIsOk (audioFormatFromStr "midi") = false :=
  audio_format_parse_case_insensitive.2.2.2.2 "midi" (by decide)

end Untracker
